import Mathlib

/-!
Verification development for the gmail-wa repository: a shallow embedding of
the email-to-ledger reconciliation pipeline (body extraction, transaction
parsing post-processing, duplicate resolution, the per-message orchestration
loop, and notification batching), together with theorems settling the frozen
claims about it.
-/

namespace GmailWa

/-! ## Generic string helpers

JavaScript `String.prototype.includes` is substring containment; we model it
on lists of characters.  JavaScript truthiness of a possibly-missing string
(`undefined`, `null` and the empty string are falsy) is modelled on
`Option String`.
-/

/-- Does the character list start with the given pattern? -/
def seqStartsWith : List Char → List Char → Bool
  | _, [] => true
  | [], _ :: _ => false
  | a :: as, b :: bs => a == b && seqStartsWith as bs

/-- Does `sub` occur as a contiguous run inside `s`?  Mirrors JavaScript
`s.includes(sub)`. -/
def seqContains (sub : List Char) : List Char → Bool
  | [] => sub.isEmpty
  | c :: rest => seqStartsWith (c :: rest) sub || seqContains sub rest

/-- JavaScript `s.includes(sub)` on strings. -/
def strContains (s sub : String) : Bool :=
  seqContains sub.toList s.toList

/-- JavaScript truthiness of a string-or-missing value: `undefined`, `null`
and `""` are falsy, every other string is truthy. -/
def strTruthy : Option String → Bool
  | none => false
  | some s => !s.isEmpty

/-- JavaScript `s.toLowerCase()` (ASCII case folding, character by
character). -/
def strToLower (s : String) : String :=
  ⟨s.data.map Char.toLower⟩

/-- JavaScript `s.trim()`: strip leading and trailing whitespace. -/
def strTrim (s : String) : String :=
  ⟨(((s.data.dropWhile Char.isWhitespace).reverse.dropWhile
      Char.isWhitespace).reverse)⟩

/-! ## Duplicate Resolver (`src/services/sheetsService.js`, `isDuplicate`)

`isDuplicate(newEntry, existingEntries)` walks the existing entries and
declares a duplicate when all of the key fields `date`, `amount`,
`category`, `description` agree after `String(x || '').toLowerCase().trim()`
normalisation.  Sheet cells and the stringified candidate fields are
strings, so entries are modelled with string fields; the `bank` field is
carried along because the claims quantify over it, but the source function
never reads it. -/

namespace Sheets

/-- A ledger row / candidate record as compared by the duplicate resolver. -/
structure Entry where
  date : String
  amount : String
  category : String
  description : String
  bank : String
  deriving Repr, DecidableEq

/-- Normalisation `String(value || '').toLowerCase().trim()` applied to a
string field. -/
def normField (s : String) : String :=
  strTrim (strToLower s)

/-- Do two entries agree on one key field after normalisation? -/
def fieldMatches (f : Entry → String) (a b : Entry) : Bool :=
  normField (f a) == normField (f b)

/-- Function `isDuplicate(newEntry, existingEntries)`: some existing entry matches the
candidate on all four key fields (date, amount, category, description) after
case-insensitive, whitespace-trimmed comparison. -/
def isDuplicate (newEntry : Entry) (existingEntries : List Entry) : Bool :=
  existingEntries.any (fun existing =>
    fieldMatches (·.date) newEntry existing &&
    fieldMatches (·.amount) newEntry existing &&
    fieldMatches (·.category) newEntry existing &&
    fieldMatches (·.description) newEntry existing)

end Sheets

/-! ## Contextual override classifier
(`config/constants.js` and `workers/src/config.ts`,
`determineBankTransactionType`) -/

namespace Config

/-- Income indicator keywords, in source order. -/
def incomeKeywords : List String :=
  ["terima", "dapat", "pemasukan", "masuk", "diterima", "gaji", "bonus",
   "transfer masuk", "kredit", "setoran", "received", "credit", "deposit",
   "hadiah"]

/-- Expense indicator keywords, in source order. -/
def expenseKeywords : List String :=
  ["beli", "bayar", "belanja", "pengeluaran", "keluar", "dibayar",
   "transfer keluar", "debit", "tarik", "withdraw", "payment", "purchase"]

/-- Function `determineBankTransactionType(bankName, transactionText)`: classify a
description as income or expense.  The bank name parameter is accepted but
never consulted, exactly as in the source. -/
def determineBankTransactionType (bankName : String)
    (transactionText : String) : String :=
  let _ := bankName
  let lowerText := strToLower transactionText
  if strContains lowerText "pembayaran" then
    if strContains lowerText "kartu kredit" ||
       strContains lowerText "credit card" ||
       strContains lowerText "qris" ||
       strContains lowerText "untuk" ||
       strContains lowerText "tagihan" ||
       strContains lowerText "bayar" then
      "expense"
    else
      "income"
  else if strContains lowerText "penjualan" || strContains lowerText "jual" then
    "income"
  else if incomeKeywords.any (fun k => strContains lowerText k) then
    "income"
  else if expenseKeywords.any (fun k => strContains lowerText k) then
    "expense"
  else
    "expense"

/-- The qualifier keywords that turn "pembayaran" into an expense. -/
def pembayaranQualifiers : List String :=
  ["kartu kredit", "credit card", "qris", "untuk", "tagihan", "bayar"]

/-- Spec reading of the classifier: an ordered table of
(predicate, verdict) rules over the lowercased text. -/
def overrideRuleTable : List ((String → Bool) × String) :=
  [(fun t => strContains t "pembayaran" &&
       pembayaranQualifiers.any (fun k => strContains t k), "expense"),
   (fun t => strContains t "pembayaran", "income"),
   (fun t => strContains t "penjualan" || strContains t "jual", "income"),
   (fun t => incomeKeywords.any (fun k => strContains t k), "income"),
   (fun t => expenseKeywords.any (fun k => strContains t k), "expense")]

/-- First-match-wins evaluation of a rule table, defaulting to expense. -/
def firstMatchVerdict : List ((String → Bool) × String) → String → String
  | [], _ => "expense"
  | (p, v) :: rules, t => if p t then v else firstMatchVerdict rules t

/-- The classifier as the spec words it: lowercase the text and run the
ordered rule table. -/
def contextualOverrideSpec (text : String) : String :=
  firstMatchVerdict overrideRuleTable (strToLower text)

end Config

/-! ## Transaction parser post-processing
(`workers/src/services/gemini.ts`, `postProcessParsedData`; the sign step is
shared verbatim with `src/services/geminiService.js` and
`src/services/enhancedGeminiService.js`)

Amounts are modelled as integers: the claims concern only the sign logic
(`Math.abs` followed by conditional negation), which is identical over any
ordered ring. -/

namespace Gemini

/-- The closed bank registry (`BANK_NAMES`), in source order. -/
def BANK_NAMES : List String :=
  ["Mandiri Wimboro", "Mandiri Fara", "Seabank Fara", "Jago Fara",
   "Jago Wimboro", "Blu Fara", "Blu Wimboro", "Neobank Fara",
   "Neobank Wimboro"]

/-- A record parsed from the model's JSON, every field nullable. -/
structure ParsedData where
  amount : Option Int
  category : Option String
  description : Option String
  transaction_type : Option String
  date : Option String
  bank : Option String
  confidence : Option Int
  deriving Repr, DecidableEq

/-- The sign-normalisation applied to a non-null amount:
`Math.abs(amount)`, negated exactly when `transaction_type === "expense"`. -/
def signApply (transaction_type : Option String) (a : Int) : Int :=
  let m := if a < 0 then -a else a
  if transaction_type == some "expense" then -m else m

/-- Step 1 of `postProcessParsedData`: normalise the sign of a non-null
amount against the stated transaction type. -/
def stepSign (d : ParsedData) : ParsedData :=
  { d with amount := d.amount.map (fun a => signApply d.transaction_type a) }

/-- Expression `bank.toLowerCase().split(" ")[0]`: the first space-separated word. -/
def firstWord (s : String) : String :=
  ⟨s.data.takeWhile (fun c => c != ' ')⟩

/-- The case-insensitive substring test used to repair a bank name:
`bank.toLowerCase().includes(bankLower) ||
 bankLower.includes(bank.toLowerCase().split(" ")[0])`. -/
def bankMatchCandidate (bankLower : String) (bank : String) : Bool :=
  strContains (strToLower bank) bankLower ||
  strContains bankLower (firstWord (strToLower bank))

/-- Step 2 of `postProcessParsedData`: when the bank is truthy but not an
exact registry key, substitute the first fuzzy registry match, else null the
bank. -/
def stepBank (d : ParsedData) : ParsedData :=
  match d.bank with
  | none => d
  | some b =>
    if !b.isEmpty && !(BANK_NAMES.contains b) then
      let bankLower := strToLower b
      match BANK_NAMES.find? (fun bank => bankMatchCandidate bankLower bank) with
      | some matchedBank => { d with bank := some matchedBank }
      | none => { d with bank := none }
    else d

/-- Step 3 of `postProcessParsedData`: when both bank and description are
truthy, re-derive the transaction type from the description and, if it
disagrees with the stated type, replace the type and reapply the sign
normalisation. -/
def stepOverride (d : ParsedData) : ParsedData :=
  if strTruthy d.bank && strTruthy d.description then
    let contextType :=
      Config.determineBankTransactionType (d.bank.getD "") (d.description.getD "")
    if d.transaction_type != some contextType then
      { d with
          transaction_type := some contextType,
          amount := d.amount.map (fun a => signApply (some contextType) a) }
    else d
  else d

/-- Step 4 of `postProcessParsedData`: default falsy confidence to 70,
falsy date to the processing day, falsy category to "Lainnya". -/
def stepDefaults (today : String) (d : ParsedData) : ParsedData :=
  let d1 :=
    match d.confidence with
    | some c => if c == 0 then { d with confidence := some 70 } else d
    | none => { d with confidence := some 70 }
  let d2 := if strTruthy d1.date then d1 else { d1 with date := some today }
  if strTruthy d2.category then d2 else { d2 with category := some "Lainnya" }

/-- Function `postProcessParsedData(parsedData, emailText)` of the workers service:
sign normalisation, bank repair, contextual override, then defaults. -/
def postProcessParsedData (today : String) (d : ParsedData) : ParsedData :=
  stepDefaults today (stepOverride (stepBank (stepSign d)))

end Gemini

/-! ## Body Extractor (`workers/src/services/gmail.ts`)

The `data` field of a payload node holds the body text as produced by
`decodeBase64` (Gmail's URL-safe base64 transport encoding is absorbed into
the representation: the model stores the decoded text directly). -/

namespace Gmail

/-- Case-insensitive character comparison (ASCII case folding), matching the
`/i` regex flag. -/
def charLowerEq (a b : Char) : Bool :=
  a.toLower == b.toLower

/-- Does the character list start with the pattern, case-insensitively? -/
def seqStartsWithCI : List Char → List Char → Bool
  | _, [] => true
  | [], _ :: _ => false
  | a :: as, b :: bs => charLowerEq a b && seqStartsWithCI as bs

/-- Drop characters up to and including the first `>` (the `[^>]*>` tail of
a tag pattern); `none` when no `>` remains.  The result carries its length
bound so the scanners below terminate structurally. -/
def dropPastGt : (s : List Char) → Option { t : List Char // t.length < s.length }
  | [] => none
  | c :: rest =>
    if c == '>' then some ⟨rest, by simp⟩
    else
      match dropPastGt rest with
      | some ⟨t, ht⟩ => some ⟨t, Nat.lt_succ_of_lt ht⟩
      | none => none

/-- Drop characters through the first case-insensitive occurrence of `pat`;
`none` when `pat` does not occur. -/
def dropAfterCI (pat : List Char) :
    (s : List Char) → Option { t : List Char // t.length ≤ s.length }
  | [] => none
  | c :: rest =>
    if seqStartsWithCI (c :: rest) pat then
      some ⟨(c :: rest).drop pat.length, by
        rw [List.length_drop]
        omega⟩
    else
      match dropAfterCI pat rest with
      | some ⟨t, ht⟩ => some ⟨t, Nat.le_succ_of_le ht⟩
      | none => none

/-- The closing-tag pattern `</tag>`. -/
def closePat (tag : List Char) : List Char :=
  '<' :: '/' :: (tag ++ ['>'])

/-- Global replacement of `<tag[^>]*>[\s\S]*?</tag>` (case-insensitive) by
the empty string: scan left to right; on a complete block, drop it and
continue after it; on an incomplete block, keep the character and continue.
Used for the script and style passes of `extractTextFromHtml`. -/
def removeBlocksCI (tag : List Char) : List Char → List Char
  | [] => []
  | c :: rest =>
    if seqStartsWithCI (c :: rest) ('<' :: tag) then
      match dropPastGt (rest.drop tag.length) with
      | some ⟨afterOpen, hOpen⟩ =>
        match dropAfterCI (closePat tag) afterOpen with
        | some ⟨afterClose, hClose⟩ => removeBlocksCI tag afterClose
        | none => c :: removeBlocksCI tag rest
      | none => c :: removeBlocksCI tag rest
    else c :: removeBlocksCI tag rest
  termination_by l => l.length
  decreasing_by
  all_goals simp only [List.length_cons]
  all_goals try rw [List.length_drop] at hOpen
  all_goals omega

/-- Global replacement of `<[^>]*>` by a single space: at each `<`, when a
later `>` exists the whole tag is replaced by one space, otherwise the `<`
is kept literally. -/
def stripTags : List Char → List Char
  | [] => []
  | c :: rest =>
    if c == '<' then
      match dropPastGt rest with
      | some ⟨t, ht⟩ => ' ' :: stripTags t
      | none => c :: stripTags rest
    else c :: stripTags rest
  termination_by l => l.length
  decreasing_by
  · simp only [List.length_cons]
    omega
  · simp
  · simp

/-- Global replacement of `\s+` by a single space (state: was the previous
character part of a whitespace run). -/
def collapseWsAux : Bool → List Char → List Char
  | _, [] => []
  | prevWs, c :: rest =>
    if c.isWhitespace then
      if prevWs then collapseWsAux true rest
      else ' ' :: collapseWsAux true rest
    else c :: collapseWsAux false rest

/-- Function `extractTextFromHtml(html)`: drop script blocks, drop style blocks,
replace the remaining tags by spaces, collapse whitespace runs, trim. -/
def extractTextFromHtml (html : String) : String :=
  strTrim
    ⟨collapseWsAux false
      (stripTags
        (removeBlocksCI "style".data (removeBlocksCI "script".data html.data)))⟩

/-- A Gmail message body node: MIME type, optional decoded body text, and an
optional list of sub-parts (`undefined` in the source is `none`; an empty
array is `some []`, which is truthy in JavaScript). -/
inductive Payload where
  | node (mimeType : String) (data : Option String) (parts : Option (List Payload))
  deriving Repr

mutual

/-- Function `extractEmailBody(payload)` on a present payload: with sub-parts, scan
them in order; without, decode the own body according to the declared MIME
type. -/
def extractBody : Payload → Option String
  | .node mimeType bodyData parts =>
    match parts with
    | some ps => extractFromParts ps
    | none =>
      match bodyData with
      | some data =>
        if data.isEmpty then none
        else if mimeType == "text/html" then some (extractTextFromHtml data)
        else some data
      | none => none

/-- The sub-part loop of `extractEmailBody`: for each part in order, a
`text/plain` part with truthy data is returned verbatim, then a `text/html`
part with truthy data is returned with markup stripped, then a part with
sub-parts is searched recursively (a truthy nested result is returned);
otherwise the loop moves on. -/
def extractFromParts : List Payload → Option String
  | [] => none
  | p :: rest =>
    match p with
    | .node mimeType bodyData parts =>
      if mimeType == "text/plain" && strTruthy bodyData then bodyData
      else if mimeType == "text/html" && strTruthy bodyData then
        some (extractTextFromHtml (bodyData.getD ""))
      else
        match parts with
        | some _ =>
          match extractBody p with
          | some nested =>
            if nested.isEmpty then extractFromParts rest else some nested
          | none => extractFromParts rest
        | none => extractFromParts rest

end

/-- Function `extractEmailBody` including the null-payload guard. -/
def extractEmailBody : Option Payload → Option String
  | none => none
  | some p => extractBody p

end Gmail

/-! ## Notification targets (`workers/src/services/whatsapp.ts` and
`src/services/whatsappService.js`) -/

namespace Whatsapp

/-- Recipient configuration: the configured phone number list and the group
id (empty string when no group is configured). -/
structure WAConfig where
  phoneNumbers : List String
  groupId : String
  deriving Repr

/-- A resolved delivery target. -/
structure Target where
  chatId : String
  displayName : String
  targetType : String
  deriving Repr, DecidableEq

/-- JavaScript `s.startsWith(pre)` on decoded characters. -/
def strStartsWith (s pre : String) : Bool :=
  seqStartsWith s.data pre.data

/-- JavaScript `s.endsWith(tail)` on decoded characters. -/
def strEndsWith (s tail : String) : Bool :=
  seqStartsWith s.data.reverse tail.data.reverse

/-- Replacement `replace(/^0/, "")`: drop at most one leading zero. -/
def dropLeadingZero (s : String) : String :=
  match s.data with
  | '0' :: rest => ⟨rest⟩
  | _ => s

/-- Function `formatPhoneNumber(phoneNumber)`: trim; empty is rejected; a leading `+`
is removed; a number with neither a `62` nor a `1` country prefix gets `62`
prepended after dropping one leading zero. -/
def formatPhoneNumber (phoneNumber : String) : Option String :=
  let formatted := strTrim phoneNumber
  if formatted.isEmpty then none
  else if strStartsWith formatted "+" then some ⟨formatted.data.drop 1⟩
  else if !strStartsWith formatted "62" && !strStartsWith formatted "1" then
    some ("62" ++ dropLeadingZero formatted)
  else some formatted

/-- Normalise a configured group id for both implementations: trim and
append `@g.us` unless already present. -/
def normalizeGroupId (groupId : String) : String :=
  let g := strTrim groupId
  if strEndsWith g "@g.us" then g else g ++ "@g.us"

/-- The contact-target list shared by both implementations: each configured
phone number that formats validly becomes a `@c.us` contact target. -/
def contactTargets (phoneNumbers : List String) : List Target :=
  phoneNumbers.filterMap (fun phoneNumber =>
    (formatPhoneNumber phoneNumber).map (fun formatted =>
      { chatId := formatted ++ "@c.us",
        displayName := phoneNumber,
        targetType := "contact" }))

/-- Function `buildNotificationTargets` of the workers service: every validly
formatted phone number as a contact target, then the group target when a
group id is configured. -/
def buildNotificationTargets (cfg : WAConfig) : List Target :=
  contactTargets cfg.phoneNumbers ++
  (if !cfg.groupId.isEmpty then
    [{ chatId := normalizeGroupId cfg.groupId,
       displayName := "Group",
       targetType := "group" }]
  else [])

/-- The single target chosen by the workers
`sendBatchWhatsAppNotification`:
`targets.find((t) => t.type === "group") || targets[0]`. -/
def workersBatchTarget (cfg : WAConfig) : Option Target :=
  match (buildNotificationTargets cfg).find?
      (fun t => t.targetType == "group") with
  | some g => some g
  | none => (buildNotificationTargets cfg).head?

/-- Function `buildBatchTargets` of the Node WAHA service: the group alone when one
is configured, otherwise every validly formatted phone number.  The batch
send loop then delivers the batch message to each returned target. -/
def buildBatchTargets (cfg : WAConfig) : List Target :=
  if !cfg.groupId.isEmpty && !(strTrim cfg.groupId).isEmpty then
    [{ chatId := normalizeGroupId cfg.groupId,
       displayName := normalizeGroupId cfg.groupId,
       targetType := "group" }]
  else
    contactTargets cfg.phoneNumbers

end Whatsapp

/-! ## Reconciliation Orchestrator (`workers/src/processors/email.ts`,
`processGmailAccount`)

The per-message loop is modelled as a pure fold over prescribed step
outcomes: each message carries the result its body extraction would
produce, the record its parse would produce, and the behaviour of its
ledger insert (`insertTransaction` reports a duplicate, inserts, or throws).
`markEmailProcessed` catches its own errors in the source, so a mark is
recorded as an event that always succeeds; the state records every mark and
every attempted insert. -/

namespace Processor

/-- The transaction entry built by the orchestrator before persisting
(`TransactionInput`). -/
structure TransactionInput where
  date : String
  amount : Int
  category : String
  description : String
  bank : String
  txType : Option String
  email_id : String
  account_id : String
  deriving Repr, DecidableEq

/-- Defaulting `value || dflt` for a nullable string field. -/
def orElseStr (o : Option String) (dflt : String) : String :=
  match o with
  | some s => if s.isEmpty then dflt else s
  | none => dflt

/-- The transaction literal of `processGmailAccount`: every nullable parsed
field is defaulted (`date || today`, `amount || 0`, `category || "Lainnya"`,
`description || ""`, `bank || "Tidak Diketahui"`); the type is copied
through unchanged. -/
def buildTransaction (today accountId messageId : String)
    (pd : Gemini.ParsedData) : TransactionInput :=
  { date := orElseStr pd.date today,
    amount := pd.amount.getD 0,
    category := orElseStr pd.category "Lainnya",
    description := orElseStr pd.description "",
    bank := orElseStr pd.bank "Tidak Diketahui",
    txType := pd.transaction_type,
    email_id := messageId,
    account_id := accountId }

/-- Behaviour of `insertTransaction` for one message: report a duplicate,
insert a fresh row, or throw (a D1 error is re-thrown by the service). -/
inductive InsertOutcome where
  | duplicate
  | inserted
  | failure
  deriving Repr, DecidableEq

/-- One candidate message together with the outcomes its pipeline steps
would produce. -/
structure EmailCase where
  id : String
  body : Option String
  parsed : Option Gemini.ParsedData
  insert : InsertOutcome
  deriving Repr

/-- The per-account counters (`ProcessingSummary`). -/
structure Summary where
  processed : Nat
  duplicates : Nat
  errors : Nat
  deriving Repr, DecidableEq

/-- The evolving state of one account cycle: counters, the list kept in
`processedTransactions`, the mark-processed events issued, and the insert
attempts issued. -/
structure LoopState where
  summary : Summary
  processedTransactions : List TransactionInput
  marks : List String
  inserts : List TransactionInput
  deriving Repr

/-- The body of the `for (const email of emails)` loop for one message:

* falsy extracted body: count an error, mark processed, continue;
* null parse result: count an error, mark processed, continue;
* otherwise build the transaction and attempt the insert; a duplicate is
  counted and marked, an insert is counted, recorded and marked, and a
  thrown insert error is caught by the per-message handler, which counts it
  without marking. -/
def stepEmail (today accountId : String) (s : LoopState) (e : EmailCase) :
    LoopState :=
  if !(strTruthy e.body) then
    { s with
        summary := { s.summary with errors := s.summary.errors + 1 },
        marks := s.marks ++ [e.id] }
  else
    match e.parsed with
    | none =>
      { s with
          summary := { s.summary with errors := s.summary.errors + 1 },
          marks := s.marks ++ [e.id] }
    | some pd =>
      let transaction := buildTransaction today accountId e.id pd
      let s1 := { s with inserts := s.inserts ++ [transaction] }
      match e.insert with
      | .failure =>
        { s1 with
            summary := { s1.summary with errors := s1.summary.errors + 1 } }
      | .duplicate =>
        { s1 with
            summary :=
              { s1.summary with duplicates := s1.summary.duplicates + 1 },
            marks := s1.marks ++ [e.id] }
      | .inserted =>
        { s1 with
            summary :=
              { s1.summary with processed := s1.summary.processed + 1 },
            processedTransactions := s1.processedTransactions ++ [transaction],
            marks := s1.marks ++ [e.id] }

/-- The per-message loop over a batch, in message order. -/
def runLoop (today accountId : String) (s : LoopState) :
    List EmailCase → LoopState
  | [] => s
  | e :: rest => runLoop today accountId (stepEmail today accountId s e) rest

/-- The state at the start of a cycle. -/
def initState : LoopState :=
  { summary := { processed := 0, duplicates := 0, errors := 0 },
    processedTransactions := [],
    marks := [],
    inserts := [] }

/-- One notification call issued after the loop. -/
inductive NotifCall where
  | single (t : TransactionInput)
  | batch (count : Nat)
  deriving Repr, DecidableEq

/-- The notification phase of `processGmailAccount`: nothing when no new
transaction was persisted or notifications are disabled; one aggregate call
when the new-transaction count exceeds the threshold; otherwise one
individually formatted call per kept transaction. -/
def notificationCalls (enabled : Bool) (threshold : Nat) (s : LoopState) :
    List NotifCall :=
  if s.summary.processed > 0 then
    if enabled then
      if s.summary.processed > threshold then
        [.batch s.summary.processed]
      else
        s.processedTransactions.map .single
    else []
  else []

end Processor

/-! ## Derived definitions used by the claim statements -/

namespace Gemini

/-- The `contextType` computed inside the override block:
`determineBankTransactionType(enhanced.bank, enhanced.description)`. -/
def contextTypeOf (d : ParsedData) : String :=
  Config.determineBankTransactionType (d.bank.getD "") (d.description.getD "")

end Gemini

namespace Gmail

/-- A `<...>` tag fragment survives when some `<` is followed (anywhere
later) by a `>`: any such pair contains a least following `>`, giving a
substring that matches `<[^>]*>`.  The extractor claims the stripped output
has none. -/
def hasAngleSpan : List Char → Bool
  | [] => false
  | c :: rest => (c == '<' && rest.any (fun d => d == '>')) || hasAngleSpan rest

end Gmail

namespace Processor

/-- One account cycle's per-message loop started from the zeroed summary. -/
def runCycle (today accountId : String) (es : List EmailCase) : LoopState :=
  runLoop today accountId initState es

/-- A fully determined parsed record used for concrete cycle scenarios. -/
def sampleParsed : Gemini.ParsedData :=
  { amount := some 1000,
    category := some "Gaji",
    description := some "gaji masuk",
    transaction_type := some "income",
    date := some "2024-01-02",
    bank := some "Mandiri Wimboro",
    confidence := some 90 }

/-- A message whose extraction, parse and insert all succeed. -/
def sampleEmail (i : String) : EmailCase :=
  { id := i, body := some "text", parsed := some sampleParsed,
    insert := .inserted }

/-- A message whose body extraction yields nothing. -/
def badBodyEmail : EmailCase :=
  { id := "m-bad", body := none, parsed := none, insert := .inserted }

/-- A message whose ledger insert throws. -/
def failInsertEmail : EmailCase :=
  { id := "m-persist", body := some "text", parsed := some sampleParsed,
    insert := .failure }

end Processor

namespace Gemini

/-- A parsed record with a truthy bank and description whose stated type
disagrees with the contextual verdict on the description. -/
def overrideSample : ParsedData :=
  { amount := some 100,
    category := none,
    description := some "penjualan barang",
    transaction_type := some "expense",
    date := none,
    bank := some "Jago Fara",
    confidence := none }

end Gemini

/-! # Theorems -/

/-- Claim C1: the duplicate verdict is true exactly when some prior entry
matches the candidate on all four key fields (date, amount, category,
description) after case-insensitive, whitespace-trimmed string comparison,
and changing only the bank field of an otherwise-identical candidate never
changes the verdict, because bank is not a key field. -/
theorem c1_duplicate_key_fields (c : Sheets.Entry) (es : List Sheets.Entry)
    (b : String) :
    (Sheets.isDuplicate c es = true ↔
      ∃ e ∈ es,
        Sheets.normField c.date = Sheets.normField e.date ∧
        Sheets.normField c.amount = Sheets.normField e.amount ∧
        Sheets.normField c.category = Sheets.normField e.category ∧
        Sheets.normField c.description = Sheets.normField e.description) ∧
    Sheets.isDuplicate { c with bank := b } es = Sheets.isDuplicate c es := by
  constructor
  · simp [Sheets.isDuplicate, Sheets.fieldMatches, List.any_eq_true, and_assoc]
  · rfl

/-- Claim C3: the contextual-override classifier follows exactly the stated
decision order — "pembayaran" with a qualifier forces expense, "pembayaran"
alone forces income, then "penjualan"/"jual" force income, then the income
keyword list is scanned before the expense keyword list with first match
winning, and with no match the verdict is expense: the classifier coincides
with the ordered first-match rule table read off the spec. -/
theorem c3_override_decision_order (bankName text : String) :
    Config.determineBankTransactionType bankName text =
      Config.contextualOverrideSpec text := by
  unfold Config.determineBankTransactionType Config.contextualOverrideSpec
  simp only [Config.overrideRuleTable, Config.pembayaranQualifiers,
    Config.firstMatchVerdict, List.any_cons, List.any_nil, Bool.or_false]
  cases h : strContains (strToLower text) "pembayaran" <;> simp [h, or_assoc]

/-- Claim C2 counterexample: a successfully parsed record with non-null
amount 0 and stated type "expense" is sign-normalised to amount 0, which is
not negative, refuting "amount is negative exactly when the type is
expense" at this input. -/
theorem c2_sign_zero_cex :
    (Gemini.stepSign
      { amount := some 0, category := none, description := none,
        transaction_type := some "expense", date := none, bank := none,
        confidence := none }).amount = some 0 ∧
    ¬ ((0 : Int) < 0) := by
  constructor
  · rfl
  · decide

/-- Claim C2 (amended): after the unconditional sign-normalisation of a
non-null amount, the stored amount is negative exactly when the stated
transaction type is "expense" and the amount is nonzero, and positive
exactly when the stated type is not "expense" (in particular when it is
"income") and the amount is nonzero; the sign reported by the model is
irrelevant, since the result depends only on the absolute value. -/
theorem c2_sign_normalization (t : Option String) (a : Int) :
    (Gemini.signApply t a < 0 ↔ t = some "expense" ∧ a ≠ 0) ∧
    (0 < Gemini.signApply t a ↔ t ≠ some "expense" ∧ a ≠ 0) ∧
    Gemini.signApply t a = Gemini.signApply t (-a) := by
  by_cases ht : t = some "expense" <;>
    simp [Gemini.signApply, ht] <;> split_ifs <;> omega

/-- Claim C4 counterexample: a successfully parsed record with a
description ("penjualan barang", contextual verdict income) but a null
bank keeps the model's stated type "expense" through post-processing: the
override is not applied to every record with a description. -/
theorem c4_override_needs_bank_cex :
    (Gemini.postProcessParsedData "2024-01-01"
      { amount := some 100, category := none,
        description := some "penjualan barang",
        transaction_type := some "expense", date := none, bank := none,
        confidence := none }).transaction_type = some "expense" ∧
    Config.determineBankTransactionType "" "penjualan barang" = "income" := by
  constructor <;> decide

/-- Claim C4 (amended): the contextual override runs exactly when both the
(post-repair) bank and the description are truthy; in that scope it is
independent of the model's stated type — whenever the contextual verdict
disagrees with the stated type it replaces the type and reapplies sign
normalisation — while a falsy bank or a falsy description leaves the record
untouched by the override step. -/
theorem c4_contextual_override (e : Gemini.ParsedData) :
    (strTruthy e.bank = true → strTruthy e.description = true →
      e.transaction_type ≠ some (Gemini.contextTypeOf e) →
        (Gemini.stepOverride e).transaction_type =
          some (Gemini.contextTypeOf e) ∧
        (Gemini.stepOverride e).amount =
          e.amount.map (fun a =>
            Gemini.signApply (some (Gemini.contextTypeOf e)) a)) ∧
    (strTruthy e.bank = false → Gemini.stepOverride e = e) ∧
    (strTruthy e.description = false → Gemini.stepOverride e = e) := by
  refine ⟨?_, ?_, ?_⟩
  · intro hb hd hne
    simp only [Gemini.contextTypeOf] at hne
    unfold Gemini.stepOverride
    simp [hb, hd, Gemini.contextTypeOf, bne_iff_ne, hne]
  · intro hb
    unfold Gemini.stepOverride
    simp [hb]
  · intro hd
    unfold Gemini.stepOverride
    simp [hd]

/-- Witness for C4: on a record with bank "Jago Fara", description
"penjualan barang" and stated type "expense", the override replaces the
type by income and re-signs the amount to +100. -/
theorem c4_contextual_override_witness :
    (Gemini.stepOverride Gemini.overrideSample).transaction_type =
      some "income" ∧
    (Gemini.stepOverride Gemini.overrideSample).amount = some 100 := by
  have h := (c4_contextual_override Gemini.overrideSample).1 rfl rfl (by decide)
  refine ⟨?_, ?_⟩
  · rw [h.1]
    decide
  · rw [h.2]
    decide

/-- Unfolding the per-message loop one message at a time. -/
theorem runLoop_cons (today accountId : String) (s : Processor.LoopState)
    (e : Processor.EmailCase) (rest : List Processor.EmailCase) :
    Processor.runLoop today accountId s (e :: rest) =
      Processor.runLoop today accountId
        (Processor.stepEmail today accountId s e) rest := rfl

/-- Claim C8: a message whose body extraction or parse fails is counted as
an error and marked processed exactly once (the step appends its id to the
mark log once and changes nothing else), and the loop then continues with
the remaining messages from that updated state. -/
theorem c8_error_isolation (today accountId : String)
    (s : Processor.LoopState) (e : Processor.EmailCase)
    (rest : List Processor.EmailCase)
    (h : strTruthy e.body = false ∨
         (strTruthy e.body = true ∧ e.parsed = none)) :
    Processor.stepEmail today accountId s e =
      { s with
          summary := { s.summary with errors := s.summary.errors + 1 },
          marks := s.marks ++ [e.id] } ∧
    Processor.runLoop today accountId s (e :: rest) =
      Processor.runLoop today accountId
        { s with
            summary := { s.summary with errors := s.summary.errors + 1 },
            marks := s.marks ++ [e.id] } rest := by
  have hstep : Processor.stepEmail today accountId s e =
      { s with
          summary := { s.summary with errors := s.summary.errors + 1 },
          marks := s.marks ++ [e.id] } := by
    rcases h with h | ⟨hb, hp⟩
    · simp [Processor.stepEmail, h]
    · simp [Processor.stepEmail, hb, hp]
  exact ⟨hstep, by rw [runLoop_cons, hstep]⟩

/-- Witness for C8: a message with no extractable body is counted as one
error and marked once. -/
theorem c8_error_isolation_witness :
    (Processor.stepEmail "2024-01-03" "acct" Processor.initState
        Processor.badBodyEmail).summary.errors = 1 ∧
    (Processor.stepEmail "2024-01-03" "acct" Processor.initState
        Processor.badBodyEmail).marks = ["m-bad"] := by
  have h := c8_error_isolation "2024-01-03" "acct" Processor.initState
      Processor.badBodyEmail [] (Or.inl rfl)
  rw [h.1]
  exact ⟨rfl, rfl⟩

/-- Claim C9 counterexample: a cycle on a single message whose ledger write
throws ends with the error counted but the mark log empty — the message is
not marked processed, contradicting the claim at this input. -/
theorem c9_persist_not_marked_cex :
    (Processor.runCycle "2024-01-04" "acct"
        [Processor.failInsertEmail]).marks = [] ∧
    (Processor.runCycle "2024-01-04" "acct"
        [Processor.failInsertEmail]).summary.errors = 1 := by
  constructor <;> rfl

/-- Claim C9 (amended): when the ledger write throws, the per-message
handler counts the failure as an error and the cycle moves on to the next
message, but the message is NOT marked processed — the exception skips the
labeling step, so the message can be retried by a later poll. -/
theorem c9_persist_failure_not_marked (today accountId : String)
    (s : Processor.LoopState) (e : Processor.EmailCase)
    (rest : List Processor.EmailCase) (pd : Gemini.ParsedData)
    (hb : strTruthy e.body = true) (hp : e.parsed = some pd)
    (hf : e.insert = .failure) :
    Processor.stepEmail today accountId s e =
      { s with
          summary := { s.summary with errors := s.summary.errors + 1 },
          inserts := s.inserts ++
            [Processor.buildTransaction today accountId e.id pd] } ∧
    (Processor.stepEmail today accountId s e).marks = s.marks ∧
    Processor.runLoop today accountId s (e :: rest) =
      Processor.runLoop today accountId
        (Processor.stepEmail today accountId s e) rest := by
  have hstep : Processor.stepEmail today accountId s e =
      { s with
          summary := { s.summary with errors := s.summary.errors + 1 },
          inserts := s.inserts ++
            [Processor.buildTransaction today accountId e.id pd] } := by
    simp [Processor.stepEmail, hb, hp, hf]
  exact ⟨hstep, by rw [hstep], runLoop_cons today accountId s e rest⟩

/-- Witness for C9: the failing-insert message leaves the mark log of a
fresh cycle state empty. -/
theorem c9_persist_failure_witness :
    (Processor.stepEmail "2024-01-04" "acct" Processor.initState
        Processor.failInsertEmail).marks = [] := by
  have h := c9_persist_failure_not_marked "2024-01-04" "acct"
      Processor.initState Processor.failInsertEmail [] Processor.sampleParsed
      rfl rfl rfl
  exact h.2.1

/-- Claim C10: for every message whose parse succeeds, the orchestrator
always attempts the ledger insert of the built transaction (a null amount
is never rejected), and the built transaction substitutes 0 for a null
amount, "Lainnya" for a null category, "" for a null description,
"Tidak Diketahui" for a null bank and the processing day for a null
date. -/
theorem c10_null_field_defaults (today accountId : String)
    (s : Processor.LoopState) (e : Processor.EmailCase)
    (pd : Gemini.ParsedData)
    (hb : strTruthy e.body = true) (hp : e.parsed = some pd) :
    (Processor.stepEmail today accountId s e).inserts =
      s.inserts ++ [Processor.buildTransaction today accountId e.id pd] ∧
    (pd.amount = none →
      (Processor.buildTransaction today accountId e.id pd).amount = 0) ∧
    (pd.category = none →
      (Processor.buildTransaction today accountId e.id pd).category =
        "Lainnya") ∧
    (pd.description = none →
      (Processor.buildTransaction today accountId e.id pd).description = "") ∧
    (pd.bank = none →
      (Processor.buildTransaction today accountId e.id pd).bank =
        "Tidak Diketahui") ∧
    (pd.date = none →
      (Processor.buildTransaction today accountId e.id pd).date = today) := by
  refine ⟨?_, ?_, ?_, ?_, ?_, ?_⟩
  · unfold Processor.stepEmail
    simp only [hb, hp]
    cases e.insert <;> simp
  all_goals
    intro h
    simp [Processor.buildTransaction, Processor.orElseStr, h]

/-- Witness for C10: an all-null parsed record on a fresh state yields one
insert attempt carrying exactly the defaulted transaction. -/
theorem c10_null_field_defaults_witness :
    (Processor.stepEmail "2024-01-03" "acct" Processor.initState
      { id := "m9", body := some "text",
        parsed := some
          { amount := none, category := none, description := none,
            transaction_type := some "expense", date := none, bank := none,
            confidence := none },
        insert := .inserted }).inserts =
      [{ date := "2024-01-03", amount := 0, category := "Lainnya",
         description := "", bank := "Tidak Diketahui",
         txType := some "expense", email_id := "m9",
         account_id := "acct" }] := by
  have h := c10_null_field_defaults "2024-01-03" "acct" Processor.initState
      { id := "m9", body := some "text",
        parsed := some
          { amount := none, category := none, description := none,
            transaction_type := some "expense", date := none, bank := none,
            confidence := none },
        insert := .inserted }
      { amount := none, category := none, description := none,
        transaction_type := some "expense", date := none, bank := none,
        confidence := none }
      rfl rfl
  rw [h.1]
  decide

/-- One loop step preserves "the kept-transaction list is exactly as long
as the processed counter". -/
theorem stepEmail_processed_len (today accountId : String)
    (s : Processor.LoopState) (e : Processor.EmailCase)
    (h : s.processedTransactions.length = s.summary.processed) :
    (Processor.stepEmail today accountId s e).processedTransactions.length =
      (Processor.stepEmail today accountId s e).summary.processed := by
  unfold Processor.stepEmail
  cases hb : strTruthy e.body
  · simp [h]
  · simp only [hb]
    cases hp : e.parsed with
    | none => simp [h]
    | some pd => cases hi : e.insert <;> simp [h]

/-- The loop preserves the processed-length invariant. -/
theorem runLoop_processed_len (today accountId : String)
    (es : List Processor.EmailCase) (s : Processor.LoopState)
    (h : s.processedTransactions.length = s.summary.processed) :
    (Processor.runLoop today accountId s es).processedTransactions.length =
      (Processor.runLoop today accountId s es).summary.processed := by
  induction es generalizing s with
  | nil => exact h
  | cons e rest ih =>
    exact ih _ (stepEmail_processed_len today accountId s e h)

/-- In a full cycle, the kept-transaction list has exactly
`summary.processed` elements. -/
theorem runCycle_processed_len (today accountId : String)
    (es : List Processor.EmailCase) :
    (Processor.runCycle today accountId es).processedTransactions.length =
      (Processor.runCycle today accountId es).summary.processed :=
  runLoop_processed_len today accountId es Processor.initState rfl

/-- Claim C5: with notifications enabled, a cycle with newly-persisted
count n and threshold t sends no notification when n = 0, exactly one
individually-formatted notification per kept transaction (n calls) when
0 < n ≤ t, and exactly one aggregate call stating the count when n > t; in
particular, with t = 5 a five-insert cycle yields 5 individual calls and a
six-insert cycle yields exactly the one aggregate call naming 6. -/
theorem c5_notification_threshold (today accountId : String)
    (es : List Processor.EmailCase) (threshold : Nat) :
    ((Processor.runCycle today accountId es).summary.processed = 0 →
      Processor.notificationCalls true threshold
        (Processor.runCycle today accountId es) = []) ∧
    (0 < (Processor.runCycle today accountId es).summary.processed →
      (Processor.runCycle today accountId es).summary.processed ≤ threshold →
        Processor.notificationCalls true threshold
            (Processor.runCycle today accountId es) =
          (Processor.runCycle today accountId es).processedTransactions.map
            Processor.NotifCall.single ∧
        (Processor.notificationCalls true threshold
            (Processor.runCycle today accountId es)).length =
          (Processor.runCycle today accountId es).summary.processed) ∧
    (threshold < (Processor.runCycle today accountId es).summary.processed →
      Processor.notificationCalls true threshold
          (Processor.runCycle today accountId es) =
        [Processor.NotifCall.batch
          (Processor.runCycle today accountId es).summary.processed]) ∧
    Processor.notificationCalls true 5
        (Processor.runCycle "2024-01-02" "acct"
          (List.replicate 5 (Processor.sampleEmail "m"))) =
      List.replicate 5
        (Processor.NotifCall.single
          (Processor.buildTransaction "2024-01-02" "acct" "m"
            Processor.sampleParsed)) ∧
    Processor.notificationCalls true 5
        (Processor.runCycle "2024-01-02" "acct"
          (List.replicate 6 (Processor.sampleEmail "m"))) =
      [Processor.NotifCall.batch 6] := by
  have hlen := runCycle_processed_len today accountId es
  refine ⟨?_, ?_, ?_, ?_, ?_⟩
  · intro h0
    simp [Processor.notificationCalls, h0]
  · intro hpos hle
    have hnot :
        ¬ ((Processor.runCycle today accountId es).summary.processed >
            threshold) := by omega
    refine ⟨?_, ?_⟩
    · simp [Processor.notificationCalls, hpos, hnot]
    · simp [Processor.notificationCalls, hpos, hnot, hlen]
  · intro hgt
    have hpos :
        0 < (Processor.runCycle today accountId es).summary.processed := by
      omega
    simp [Processor.notificationCalls, hpos, hgt]
  · decide
  · decide

/-- Witness for C5: a six-insert cycle at threshold 5 yields exactly the
single aggregate call naming count 6. -/
theorem c5_notification_threshold_witness :
    Processor.notificationCalls true 5
        (Processor.runCycle "2024-01-02" "acct"
          (List.replicate 6 (Processor.sampleEmail "m"))) =
      [Processor.NotifCall.batch 6] :=
  (c5_notification_threshold "2024-01-02" "acct"
      (List.replicate 6 (Processor.sampleEmail "m")) 5).2.2.1 (by decide)

/-- A failed search over the first list hands the search to the second. -/
theorem find?_append_of_none {α : Type} (p : α → Bool) {l1 l2 : List α}
    (h : l1.find? p = none) : (l1 ++ l2).find? p = l2.find? p := by
  induction l1 with
  | nil => rfl
  | cons a l ih =>
    cases hpa : p a
    · simp only [List.cons_append, List.find?_cons, hpa] at h ⊢
      exact ih h
    · simp [List.find?_cons, hpa] at h

/-- Every target built from the phone-number list is a contact target,
so the group search over them fails. -/
theorem contactTargets_find_group (pns : List String) :
    (Whatsapp.contactTargets pns).find?
      (fun t => t.targetType == "group") = none := by
  rw [List.find?_eq_none]
  intro t ht
  simp only [Whatsapp.contactTargets, List.mem_filterMap] at ht
  obtain ⟨pn, _, hf⟩ := ht
  rcases hmap : Whatsapp.formatPhoneNumber pn with _ | f <;> rw [hmap] at hf
  · simp at hf
  · simp only [Option.map_some'] at hf
    cases hf
    simp

/-- Claim C6 counterexample: with no group configured and two phone
numbers, the Node `buildBatchTargets` returns both individual recipients,
so the batch message is fanned out to every individual target rather than
falling back to only the first. -/
theorem c6_batch_fanout_cex :
    Whatsapp.buildBatchTargets
        { phoneNumbers := ["0811", "0822"], groupId := "" } =
      [{ chatId := "62811@c.us", displayName := "0811",
         targetType := "contact" },
       { chatId := "62822@c.us", displayName := "0822",
         targetType := "contact" }] ∧
    (Whatsapp.buildBatchTargets
        { phoneNumbers := ["0811", "0822"], groupId := "" }).length = 2 := by
  constructor <;> decide

/-- Claim C6 (amended): the workers batch sender delivers to exactly one
target — the group when one is configured, else the first individual
target; the Node WAHA batch builder uses the group alone when configured,
but with no group it falls back to all validly formatted individual
numbers, not just the first. -/
theorem c6_batch_target_selection (cfg : Whatsapp.WAConfig) :
    (cfg.groupId ≠ "" →
      Whatsapp.workersBatchTarget cfg =
        some { chatId := Whatsapp.normalizeGroupId cfg.groupId,
               displayName := "Group", targetType := "group" }) ∧
    (cfg.groupId = "" →
      Whatsapp.workersBatchTarget cfg =
        (Whatsapp.contactTargets cfg.phoneNumbers).head?) ∧
    (cfg.groupId ≠ "" → strTrim cfg.groupId ≠ "" →
      Whatsapp.buildBatchTargets cfg =
        [{ chatId := Whatsapp.normalizeGroupId cfg.groupId,
           displayName := Whatsapp.normalizeGroupId cfg.groupId,
           targetType := "group" }]) ∧
    (cfg.groupId = "" →
      Whatsapp.buildBatchTargets cfg =
        Whatsapp.contactTargets cfg.phoneNumbers) := by
  refine ⟨?_, ?_, ?_, ?_⟩
  · intro hg
    have hne : (!cfg.groupId.isEmpty) = true := by
      cases hemp : cfg.groupId.isEmpty
      · rfl
      · exact absurd ((String.isEmpty_iff _).mp hemp) hg
    unfold Whatsapp.workersBatchTarget Whatsapp.buildNotificationTargets
    rw [hne]
    simp only [if_true]
    rw [find?_append_of_none _ (contactTargets_find_group cfg.phoneNumbers)]
    simp [List.find?_cons]
  · intro hg
    have hemp : cfg.groupId.isEmpty = true := by
      rw [hg]
      decide
    unfold Whatsapp.workersBatchTarget Whatsapp.buildNotificationTargets
    simp [hemp, contactTargets_find_group cfg.phoneNumbers]
  · intro hg ht
    have hne : (!cfg.groupId.isEmpty) = true := by
      cases hemp : cfg.groupId.isEmpty
      · rfl
      · exact absurd ((String.isEmpty_iff _).mp hemp) hg
    have hnt : (!(strTrim cfg.groupId).isEmpty) = true := by
      cases hemp : (strTrim cfg.groupId).isEmpty
      · rfl
      · exact absurd ((String.isEmpty_iff _).mp hemp) ht
    unfold Whatsapp.buildBatchTargets
    rw [hne, hnt]
    simp
  · intro hg
    have hemp : cfg.groupId.isEmpty = true := by
      rw [hg]
      decide
    unfold Whatsapp.buildBatchTargets
    simp [hemp]

/-- Witness for C6: with a configured group the workers batch sender picks
the group target. -/
theorem c6_batch_target_selection_witness :
    Whatsapp.workersBatchTarget
        { phoneNumbers := ["0811"], groupId := "123456" } =
      some { chatId := "123456@g.us", displayName := "Group",
             targetType := "group" } := by
  have h := (c6_batch_target_selection
      { phoneNumbers := ["0811"], groupId := "123456" }).1 (by decide)
  rw [h]
  decide

/-- Characters surviving the tag scan all come from the input. -/
theorem dropPastGt_subset :
    ∀ (s : List Char) (r : { t : List Char // t.length < s.length }),
      Gmail.dropPastGt s = some r → ∀ c ∈ r.val, c ∈ s := by
  intro s
  induction s with
  | nil =>
    intro r h
    simp [Gmail.dropPastGt] at h
  | cons a rest ih =>
    intro r h c hc
    rw [Gmail.dropPastGt] at h
    by_cases ha : (a == '>') = true
    · simp only [ha, if_true] at h
      cases h
      exact List.mem_cons_of_mem _ hc
    · simp only [ha, if_false, Bool.false_eq_true] at h
      rcases hrec : Gmail.dropPastGt rest with _ | t <;> rw [hrec] at h
      · exact absurd h (by simp)
      · cases h
        exact List.mem_cons_of_mem _ (ih t hrec c hc)

/-- When the tag scan fails there is no `>` at all. -/
theorem dropPastGt_none :
    ∀ (s : List Char), Gmail.dropPastGt s = none →
      s.any (fun d => d == '>') = false := by
  intro s
  induction s with
  | nil => intro _; rfl
  | cons a rest ih =>
    intro h
    rw [Gmail.dropPastGt] at h
    by_cases ha : (a == '>') = true
    · simp [ha] at h
    · rcases hrec : Gmail.dropPastGt rest with _ | t <;> rw [hrec] at h
      · simp [List.any_cons, ha, ih hrec]
      · simp [ha] at h

/-- Every character of the tag-stripped text is an input character or the
space substituted for a tag. -/
theorem stripTags_mem (s : List Char) :
    ∀ c ∈ Gmail.stripTags s, c ∈ s ∨ c = ' ' := by
  induction s using Gmail.stripTags.induct with
  | case1 =>
    simp [Gmail.stripTags]
  | case2 c rest hc t ht hd ih =>
    rw [Gmail.stripTags, if_pos hc, hd]
    intro x hx
    rcases List.mem_cons.mp hx with hx | hx
    · exact Or.inr hx
    · rcases ih x hx with hx | hx
      · exact Or.inl (List.mem_cons_of_mem _ (dropPastGt_subset rest ⟨t, ht⟩ hd x hx))
      · exact Or.inr hx
  | case3 c rest hc hd ih =>
    rw [Gmail.stripTags, if_pos hc, hd]
    intro x hx
    rcases List.mem_cons.mp hx with hx | hx
    · exact Or.inl (hx ▸ List.mem_cons_self _ _)
    · rcases ih x hx with hx | hx
      · exact Or.inl (List.mem_cons_of_mem _ hx)
      · exact Or.inr hx
  | case4 c rest hc ih =>
    rw [Gmail.stripTags, if_neg hc]
    intro x hx
    rcases List.mem_cons.mp hx with hx | hx
    · exact Or.inl (hx ▸ List.mem_cons_self _ _)
    · rcases ih x hx with hx | hx
      · exact Or.inl (List.mem_cons_of_mem _ hx)
      · exact Or.inr hx

/-- After the tag scan no `<` is followed by a later `>`. -/
theorem stripTags_no_angle (s : List Char) :
    Gmail.hasAngleSpan (Gmail.stripTags s) = false := by
  induction s using Gmail.stripTags.induct with
  | case1 =>
    simp [Gmail.stripTags, Gmail.hasAngleSpan]
  | case2 c rest hc t ht hd ih =>
    rw [Gmail.stripTags, if_pos hc, hd]
    simp [Gmail.hasAngleSpan, ih]
  | case3 c rest hc hd ih =>
    rw [Gmail.stripTags, if_pos hc, hd]
    have hnone := dropPastGt_none rest hd
    have hany : (Gmail.stripTags rest).any (fun d => d == '>') = false := by
      rw [List.any_eq_false]
      intro x hx
      rcases stripTags_mem rest x hx with hmem | hsp
      · have := List.any_eq_false.mp hnone x hmem
        simpa using this
      · subst hsp
        decide
    simp [Gmail.hasAngleSpan, hany, ih]
  | case4 c rest hc ih =>
    rw [Gmail.stripTags, if_neg hc]
    simp only [Gmail.hasAngleSpan, ih, Bool.or_false]
    have : (c == '<') = false := by
      cases hb : (c == '<')
      · rfl
      · exact absurd hb hc
    simp [this]

/-- Whitespace collapsing only keeps input characters or spaces. -/
theorem collapseWs_mem (s : List Char) :
    ∀ (b : Bool), ∀ c ∈ Gmail.collapseWsAux b s, c ∈ s ∨ c = ' ' := by
  induction s with
  | nil =>
    intro b c hc
    simp [Gmail.collapseWsAux] at hc
  | cons a rest ih =>
    intro b c hc
    rw [Gmail.collapseWsAux] at hc
    by_cases hw : a.isWhitespace
    · rw [if_pos hw] at hc
      cases b with
      | true =>
        rw [if_pos rfl] at hc
        rcases ih true c hc with h | h
        · exact Or.inl (List.mem_cons_of_mem _ h)
        · exact Or.inr h
      | false =>
        rw [if_neg (by decide)] at hc
        rcases List.mem_cons.mp hc with h | h
        · exact Or.inr h
        · rcases ih true c h with h | h
          · exact Or.inl (List.mem_cons_of_mem _ h)
          · exact Or.inr h
    · rw [if_neg hw] at hc
      rcases List.mem_cons.mp hc with h | h
      · exact Or.inl (h ▸ List.mem_cons_self _ _)
      · rcases ih false c h with h | h
        · exact Or.inl (List.mem_cons_of_mem _ h)
        · exact Or.inr h

/-- Whitespace collapsing cannot create a `<` followed by a `>`. -/
theorem collapseWs_no_angle (s : List Char) :
    ∀ (b : Bool), Gmail.hasAngleSpan s = false →
      Gmail.hasAngleSpan (Gmail.collapseWsAux b s) = false := by
  induction s with
  | nil =>
    intro b _
    rfl
  | cons a rest ih =>
    intro b h
    rw [Gmail.hasAngleSpan] at h
    rw [Bool.or_eq_false_iff] at h
    obtain ⟨h1, h2⟩ := h
    rw [Gmail.collapseWsAux]
    by_cases hw : a.isWhitespace
    · rw [if_pos hw]
      cases b with
      | true =>
        rw [if_pos rfl]
        exact ih true h2
      | false =>
        rw [if_neg (by decide)]
        simp only [Gmail.hasAngleSpan, ih true h2, Bool.or_false]
        simp [show (' ' == '<') = false from rfl]
    · simp only [hw, if_false]
      simp only [Gmail.hasAngleSpan, ih false h2, Bool.or_false]
      by_cases ha : (a == '<') = true
      · rw [Bool.and_eq_false_iff] at h1
        rcases h1 with h1 | h1
        · rw [ha] at h1
          simp at h1
        · have hany : (Gmail.collapseWsAux false rest).any
              (fun d => d == '>') = false := by
            rw [List.any_eq_false]
            intro x hx
            rcases collapseWs_mem rest false x hx with hmem | hsp
            · have := List.any_eq_false.mp h1 x hmem
              simpa using this
            · subst hsp
              decide
          simp [hany]
      · have : (a == '<') = false := by
          cases hb : (a == '<')
          · rfl
          · exact absurd hb ha
        simp [this]

/-- Dropping a prefix preserves "no `<` followed by `>`". -/
theorem hasAngleSpan_append_right (l1 l2 : List Char)
    (h : Gmail.hasAngleSpan (l1 ++ l2) = false) :
    Gmail.hasAngleSpan l2 = false := by
  induction l1 with
  | nil => exact h
  | cons a l ih =>
    rw [List.cons_append, Gmail.hasAngleSpan, Bool.or_eq_false_iff] at h
    exact ih h.2

/-- Dropping a suffix preserves "no `<` followed by `>`". -/
theorem hasAngleSpan_append_left (l1 l2 : List Char)
    (h : Gmail.hasAngleSpan (l1 ++ l2) = false) :
    Gmail.hasAngleSpan l1 = false := by
  induction l1 with
  | nil => rfl
  | cons a l ih =>
    rw [List.cons_append, Gmail.hasAngleSpan, Bool.or_eq_false_iff] at h
    obtain ⟨h1, h2⟩ := h
    rw [Gmail.hasAngleSpan, Bool.or_eq_false_iff]
    refine ⟨?_, ih h2⟩
    rw [Bool.and_eq_false_iff] at h1 ⊢
    rcases h1 with h1 | h1
    · exact Or.inl h1
    · rw [List.any_append, Bool.or_eq_false_iff] at h1
      exact Or.inr h1.1

/-- Trimming preserves "no `<` followed by `>`". -/
theorem hasAngleSpan_trim (s : List Char)
    (h : Gmail.hasAngleSpan s = false) :
    Gmail.hasAngleSpan (strTrim ⟨s⟩).data = false := by
  have hu : Gmail.hasAngleSpan (s.dropWhile Char.isWhitespace) = false := by
    have hdec := List.takeWhile_append_dropWhile
      (p := Char.isWhitespace) (l := s)
    rw [← hdec] at h
    exact hasAngleSpan_append_right _ _ h
  have hdecomp :
      s.dropWhile Char.isWhitespace =
        ((s.dropWhile Char.isWhitespace).reverse.dropWhile
            Char.isWhitespace).reverse ++
          ((s.dropWhile Char.isWhitespace).reverse.takeWhile
            Char.isWhitespace).reverse := by
    calc s.dropWhile Char.isWhitespace
        = (s.dropWhile Char.isWhitespace).reverse.reverse := by
          rw [List.reverse_reverse]
      _ = ((s.dropWhile Char.isWhitespace).reverse.takeWhile
              Char.isWhitespace ++
            (s.dropWhile Char.isWhitespace).reverse.dropWhile
              Char.isWhitespace).reverse := by
          rw [List.takeWhile_append_dropWhile]
      _ = _ := by
          rw [List.reverse_append]
  rw [hdecomp] at hu
  exact hasAngleSpan_append_left _ _ hu

/-- The full html-to-text pipeline leaves no `<` followed by a `>`. -/
theorem extractTextFromHtml_no_angle (html : String) :
    Gmail.hasAngleSpan (Gmail.extractTextFromHtml html).data = false := by
  unfold Gmail.extractTextFromHtml
  exact hasAngleSpan_trim _ (collapseWs_no_angle _ false (stripTags_no_angle _))

/-- Claim C7 counterexample: a multipart body whose first sub-part is
text/html and whose second is text/plain returns the stripped html, not the
existing text/plain part verbatim — an earlier html part wins over a later
plain part. -/
theorem c7_html_first_cex :
    Gmail.extractEmailBody (some (.node "multipart/alternative" none (some
      [.node "text/html" (some "<b>hi</b>") none,
       .node "text/plain" (some "hello") none]))) = some "hi" ∧
    Gmail.extractEmailBody (some (.node "multipart/alternative" none (some
      [.node "text/html" (some "<b>hi</b>") none,
       .node "text/plain" (some "hello") none]))) ≠ some "hello" := by
  have hhtml : Gmail.extractTextFromHtml "<b>hi</b>" = "hi" := by
    simp [Gmail.extractTextFromHtml, Gmail.removeBlocksCI, Gmail.stripTags,
      Gmail.collapseWsAux, Gmail.dropPastGt, Gmail.dropAfterCI,
      Gmail.seqStartsWithCI, Gmail.charLowerEq, Gmail.closePat, strTrim]
  have h1 : Gmail.extractEmailBody (some (.node "multipart/alternative" none
      (some [.node "text/html" (some "<b>hi</b>") none,
             .node "text/plain" (some "hello") none]))) = some "hi" := by
    simp [Gmail.extractEmailBody, Gmail.extractBody, Gmail.extractFromParts,
      strTruthy, hhtml]
    rfl
  exact ⟨h1, by rw [h1]; decide⟩

/-- Claim C7 (amended): the sub-part scan takes the first content-bearing
part in declared order — a leading text/plain part with data is returned
verbatim, a leading text/html part with data is returned with markup
stripped even if a text/plain part follows later, and a data-less leaf part
is skipped in favour of the rest of the list; whenever html is stripped,
the output contains no `<...>` tag fragment (no `<` of the result is
followed by a later `>`). -/
theorem c7_extraction_order (h : String) (sub : Option (List Gmail.Payload))
    (rest : List Gmail.Payload) (mt : String) :
    (h ≠ "" →
      Gmail.extractFromParts
          (.node "text/plain" (some h) sub :: rest) = some h) ∧
    (h ≠ "" →
      Gmail.extractFromParts
          (.node "text/html" (some h) sub :: rest) =
        some (Gmail.extractTextFromHtml h)) ∧
    (Gmail.extractFromParts (.node mt none none :: rest) =
      Gmail.extractFromParts rest) ∧
    Gmail.hasAngleSpan (Gmail.extractTextFromHtml h).data = false := by
  refine ⟨?_, ?_, ?_, extractTextFromHtml_no_angle h⟩
  · intro hne
    have ht : strTruthy (some h) = true := by
      cases hemp : h.isEmpty
      · simp [strTruthy, hemp]
      · exact absurd ((String.isEmpty_iff _).mp hemp) hne
    rw [Gmail.extractFromParts.eq_def]
    simp [ht]
  · intro hne
    have ht : strTruthy (some h) = true := by
      cases hemp : h.isEmpty
      · simp [strTruthy, hemp]
      · exact absurd ((String.isEmpty_iff _).mp hemp) hne
    rw [Gmail.extractFromParts.eq_def]
    simp [ht]
  · rw [Gmail.extractFromParts.eq_def]
    simp [strTruthy]

/-- Witness for C7: a leading text/plain part is returned verbatim, and a
leading text/html part wins over a later plain part. -/
theorem c7_extraction_order_witness :
    Gmail.extractFromParts
        [.node "text/plain" (some "hello") none,
         .node "text/html" (some "<b>hi</b>") none] = some "hello" :=
  (c7_extraction_order "hello" none
      [.node "text/html" (some "<b>hi</b>") none] "text/plain").1
    (by decide)

end GmailWa
